import Mathlib

/-!
Verification development for the MedicalHistory backend
(`backend/database.py`, `backend/server.py`).

The embedding models the patient-records table of the SQLite store as a
list of rows (in rowid order, which is the order SQLite scans for the
unordered `SELECT ... LIMIT 1` queries the code issues), and the
side-effecting request handlers as pure functions from an explicit
environment (drive connectivity, upload outcome, database file size) and
store state to results together with their effect traces (rows written to
the `sync_log` table, whether the post-write backup check ran).
-/

namespace MedicalHistory

/-- Case folding used both by SQLite's `LOWER` in the queries and by the
spec's `lower`: lower-case the string character by character. -/
def lower (s : String) : String := ⟨s.data.map Char.toLower⟩

/-! ### Decimal formatting: Python's `f"P{n:04d}"` -/

/-- Little-endian decimal digits of `n`, with explicit fuel so the
definition is structurally recursive (the fuel is instantiated with `n`
itself, which always suffices). -/
def digitsAux : Nat → Nat → List Nat
  | 0, _ => []
  | fuel + 1, n => if n = 0 then [] else (n % 10) :: digitsAux fuel (n / 10)

/-- Little-endian decimal digits of `n`. -/
def decDigits (n : Nat) : List Nat := digitsAux n n

/-- Decimal rendering of a natural number, as Python's `"%d"`. -/
def natRepr (n : Nat) : String :=
  if n = 0 then "0" else ⟨(decDigits n).reverse.map Nat.digitChar⟩

/-- Python's `f"{n:04d}"`: the decimal rendering left-padded with `'0'`
to at least four characters. -/
def pad4 (n : Nat) : String :=
  let s := natRepr n
  ⟨List.replicate (4 - s.length) '0' ++ s.data⟩

/-- The patient-id format `f"P{next_id:04d}"` from
`database.py:get_next_patient_id`. -/
def fmtPatientId (n : Nat) : String := "P" ++ pad4 n

/-! ### The patient_records table -/

/-- One row of the `patient_records` table
(`database.py`, `init_db`, columns in schema order). -/
structure PatientRow where
  id : Nat
  user_id : Int
  patient_id : String
  patient_name : String
  diagnosis_details : String
  medicine_names : String
  created_at : String
  updated_at : String
deriving DecidableEq, Repr

/-- The durable store: the `patient_records` rows in rowid order plus the
next AUTOINCREMENT rowid. -/
structure Store where
  rows : List PatientRow
  nextRowId : Nat
deriving DecidableEq, Repr

/-- The freshly initialized store (`init_db`): no rows, first rowid 1. -/
def emptyStore : Store := ⟨[], 1⟩

/-- The query `SELECT COUNT(DISTINCT patient_id) FROM patient_records`. -/
def countDistinctPatientIds (s : Store) : Nat :=
  (s.rows.map (·.patient_id)).dedup.length

/-- Embedding of `database.py:get_next_patient_id`: return the `patient_id` of the
first row whose name matches case-insensitively
(`SELECT patient_id ... WHERE LOWER(patient_name) = LOWER(?) LIMIT 1`),
otherwise `P` + the zero-padded successor of the distinct-id count. -/
def get_next_patient_id (s : Store) (patient_name : String) : String :=
  match s.rows.find? (fun r => lower r.patient_name = lower patient_name) with
  | some row => row.patient_id
  | none => fmtPatientId (countDistinctPatientIds s + 1)

/-- The function `get_next_patient_id` as a state transformer: the function only issues
`SELECT` statements, so the store component of the result is the input
store itself. -/
def get_next_patient_id_run (s : Store) (patient_name : String) :
    String × Store :=
  (get_next_patient_id s patient_name, s)

/-! ### Storage statistics (`database.py:get_storage_stats`,
`server.py:get_storage_stats`) -/

/-- Python's `round` to an integer: round half to even, on exact
rationals. -/
def roundHalfEven (q : ℚ) : ℤ :=
  if q - (⌊q⌋ : ℚ) < 1 / 2 then ⌊q⌋
  else if 1 / 2 < q - (⌊q⌋ : ℚ) then ⌊q⌋ + 1
  else if Even ⌊q⌋ then ⌊q⌋ else ⌊q⌋ + 1

/-- Python's `round(x, 2)`. -/
def pyRound2 (q : ℚ) : ℚ := (roundHalfEven (q * 100) : ℚ) / 100

/-- The dictionary returned by `database.py:get_storage_stats`. -/
structure DbStorageStats where
  total_records : Nat
  storage_used_mb : ℚ
  storage_percentage : ℚ
  db_size_bytes : Nat
deriving DecidableEq, Repr

/-- Embedding of `database.py:get_storage_stats`: megabytes used, percentage of the
fixed 50 MB quota, both rounded to two decimals. `total_records` counts
the `patient_records` rows; `db_size_bytes` is the database file size. -/
def db_get_storage_stats (total_records db_size_bytes : Nat) :
    DbStorageStats :=
  let storage_used_mb : ℚ := (db_size_bytes : ℚ) / (1024 * 1024)
  let max_storage_mb : ℚ := 50
  let storage_percentage : ℚ := storage_used_mb / max_storage_mb * 100
  { total_records := total_records
    storage_used_mb := pyRound2 storage_used_mb
    storage_percentage := pyRound2 storage_percentage
    db_size_bytes := db_size_bytes }

/-- The `StorageStats` response model of `server.py`. -/
structure StorageStats where
  total_records : Nat
  storage_used_mb : ℚ
  storage_percentage : ℚ
  needs_backup : Bool
deriving DecidableEq, Repr

/-- Embedding of `server.py:get_storage_stats`: wraps the database statistics and sets
`needs_backup = stats['storage_percentage'] >= 80`. -/
def server_get_storage_stats (total_records db_size_bytes : Nat) :
    StorageStats :=
  let stats := db_get_storage_stats total_records db_size_bytes
  { total_records := stats.total_records
    storage_used_mb := stats.storage_used_mb
    storage_percentage := stats.storage_percentage
    needs_backup := decide (80 ≤ stats.storage_percentage) }

/-! ### Google Drive backup (`server.py`) -/

/-- The result of a successful Drive upload
(`service.files().create(...).execute()`). -/
structure DriveFile where
  id : String
  name : String
  size : Nat
deriving DecidableEq, Repr

/-- One row of the `sync_log` table, as inserted by
`backup_to_drive`. -/
structure SyncLogEntry where
  sync_type : String
  file_name : String
  file_size : Nat
  drive_file_id : String
  status : String
deriving DecidableEq, Repr

/-- The external collaborators of one request: whether Drive credentials
with an access token are stored (`check_drive_status`), the outcome the
transport would give an upload attempt, the database file size and row
count that `get_storage_stats` would observe. -/
structure BackupEnv where
  connected : Bool
  upload : Except String DriveFile
  total_records : Nat
  db_size_bytes : Nat
deriving Repr

/-- Embedding of `server.py:backup_to_drive`: obtain the Drive service (HTTP 400 when
not connected), upload the database file, and on success insert a
`sync_log` row with status `success` and return the file description;
an upload fault is re-raised as HTTP 500 with no `sync_log` row. -/
def backup_to_drive (env : BackupEnv) (backup_filename : String) :
    Except (Nat × String) (DriveFile × List SyncLogEntry) :=
  if env.connected = false then
    .error (400, "Google Drive not connected")
  else
    match env.upload with
    | .error e => .error (500, "Backup failed: " ++ e)
    | .ok file =>
        .ok (file, [⟨"backup", backup_filename, file.size, file.id, "success"⟩])

/-- Which branch of the post-write check ran. -/
inductive BackupOutcome where
  | skippedBelowThreshold
  | skippedDisconnected
  | succeeded (file_id : String)
  | failed (reason : String)
deriving DecidableEq, Repr

/-- The effect trace of one `check_and_backup_if_needed` call. -/
structure CheckResult where
  outcome : BackupOutcome
  events : List SyncLogEntry
  uploadAttempted : Bool
deriving DecidableEq, Repr

/-- Embedding of `server.py:check_and_backup_if_needed`: read the storage statistics;
when the percentage is at least 80 and `check_drive_status` reports a
connection, call `backup_to_drive`; the surrounding `try/except` logs and
swallows every exception, so the function always returns normally. The
`outcome` field records which branch ran. -/
def check_and_backup_if_needed (env : BackupEnv) (backup_filename : String) :
    CheckResult :=
  let stats := db_get_storage_stats env.total_records env.db_size_bytes
  if 80 ≤ stats.storage_percentage then
    if env.connected then
      match backup_to_drive env backup_filename with
      | .ok (file, events) => ⟨.succeeded file.id, events, true⟩
      | .error e => ⟨.failed e.2, [], true⟩
    else ⟨.skippedDisconnected, [], false⟩
  else ⟨.skippedBelowThreshold, [], false⟩

/-! ### The `PatientRecord` response model and the record handlers
(`server.py`) -/

/-- The pydantic `PatientRecord` model of `server.py`: `id`,
`created_at` and `updated_at` are optional, the rest are required. -/
structure PatientRecord where
  id : Option Nat
  user_id : Int
  patient_id : String
  patient_name : String
  diagnosis_details : String
  medicine_names : String
  created_at : Option String
  updated_at : Option String
deriving DecidableEq, Repr

/-- The keyword arguments of a `PatientRecord(...)` constructor call;
a field not passed at the call site stays `none`. -/
structure PatientRecordArgs where
  id : Option Nat := none
  user_id : Option Int := none
  patient_id : Option String := none
  patient_name : Option String := none
  diagnosis_details : Option String := none
  medicine_names : Option String := none
  created_at : Option String := none
  updated_at : Option String := none

/-- Pydantic validation of a `PatientRecord(...)` call: every required
field (`user_id`, `patient_id`, `patient_name`, `diagnosis_details`,
`medicine_names`) must be present, otherwise a `ValidationError` is
raised. -/
def validatePatientRecord (a : PatientRecordArgs) :
    Except String PatientRecord :=
  match a.user_id, a.patient_id, a.patient_name,
      a.diagnosis_details, a.medicine_names with
  | some u, some pid, some pn, some dd, some mn =>
      .ok ⟨a.id, u, pid, pn, dd, mn, a.created_at, a.updated_at⟩
  | _, _, _, _, _ => .error "ValidationError: field required"

/-- The request body of `POST /api/patients`. -/
structure PatientRecordCreate where
  patient_name : String
  diagnosis_details : String
  medicine_names : String
deriving DecidableEq, Repr

/-- The store after the `INSERT INTO patient_records ...` of
`create_patient_record`: the new row is appended with the next
AUTOINCREMENT rowid (timestamp columns take their SQL defaults, modelled
as `""`). -/
def createStore (s : Store) (record : PatientRecordCreate) (user_id : Int)
    (patient_id : String) : Store :=
  { rows := s.rows ++
      [⟨s.nextRowId, user_id, patient_id, record.patient_name,
        record.diagnosis_details, record.medicine_names, "", ""⟩]
    nextRowId := s.nextRowId + 1 }

/-- The store after `DELETE FROM patient_records WHERE id = ?`
(`delete_patient_record`); the AUTOINCREMENT counter is not reset. -/
def deleteStore (s : Store) (record_id : Nat) : Store :=
  { rows := s.rows.filter (fun r => r.id ≠ record_id)
    nextRowId := s.nextRowId }

/-- The full result of one `create_patient_record` request: the HTTP
response, the store it leaves behind, whether the post-write
`check_and_backup_if_needed` call was reached, and the `sync_log` rows
it appended. -/
structure CreateResult where
  response : Except (Nat × String) PatientRecord
  store : Store
  backupCheckRun : Bool
  backupEvents : List SyncLogEntry

/-- Embedding of `server.py:create_patient_record`: resolve the patient id via
`get_next_patient_id`, insert the row, re-select it by its rowid, and —
when the select returns a row — `return PatientRecord(...)` immediately;
only when the select returns nothing does control reach
`await check_and_backup_if_needed()`, after which the handler falls off
its end and FastAPI fails the `response_model` validation (HTTP 500). -/
def create_patient_record (env : BackupEnv) (s : Store)
    (record : PatientRecordCreate) (user_id : Int) : CreateResult :=
  let patient_id := get_next_patient_id s record.patient_name
  let s' := createStore s record user_id patient_id
  match s'.rows.find? (fun r => r.id = s.nextRowId) with
  | some row =>
      { response := .ok ⟨some row.id, row.user_id, row.patient_id,
          row.patient_name, row.diagnosis_details, row.medicine_names,
          some row.created_at, some row.updated_at⟩
        store := s'
        backupCheckRun := false
        backupEvents := [] }
  | none =>
      let chk := check_and_backup_if_needed env "medical_records_backup.db"
      { response := .error (500, "response_model validation failed: None")
        store := s'
        backupCheckRun := true
        backupEvents := chk.events }

/-- Embedding of `server.py:get_patient_record`: select the row by id (404 when
absent) and build the response with the shifted column mapping of lines
389–396 — `patient_id=row[1]`, `patient_name=row[2]`, … — which passes no
`user_id`; the resulting `ValidationError` is caught by the blanket
`except` and re-raised as HTTP 404 "Record not found". -/
def get_patient_record (s : Store) (record_id : Nat) :
    Except (Nat × String) PatientRecord :=
  match s.rows.find? (fun r => r.id = record_id) with
  | none => .error (404, "Record not found")
  | some row =>
      match validatePatientRecord
          { id := some row.id
            patient_id := some (toString row.user_id)
            patient_name := some row.patient_id
            diagnosis_details := some row.patient_name
            medicine_names := some row.diagnosis_details
            created_at := some row.medicine_names
            updated_at := some row.created_at } with
      | .ok pr => .ok pr
      | .error _ => .error (404, "Record not found")

/-! ### Reachable store states -/

/-- One store-mutating request: a `create_patient_record` (any request
body and user id) or a `delete_patient_record` (any record id). -/
inductive Step : Store → Store → Prop
  | create (s : Store) (record : PatientRecordCreate) (user_id : Int) :
      Step s (createStore s record user_id
        (get_next_patient_id s record.patient_name))
  | delete (s : Store) (record_id : Nat) :
      Step s (deleteStore s record_id)

/-- Stores reachable from the freshly initialized database by any
sequence of create and delete requests. -/
inductive Reachable : Store → Prop
  | init : Reachable emptyStore
  | step {s s' : Store} : Reachable s → Step s s' → Reachable s'

/-- Stores reachable from the freshly initialized database by create
requests only. -/
inductive ReachableCreateOnly : Store → Prop
  | init : ReachableCreateOnly emptyStore
  | create {s : Store} (record : PatientRecordCreate) (user_id : Int) :
      ReachableCreateOnly s →
      ReachableCreateOnly (createStore s record user_id
        (get_next_patient_id s record.patient_name))

/-- Value of a little-endian digit list. -/
def ofDigitsRev : List Nat → Nat
  | [] => 0
  | d :: ds => d + 10 * ofDigitsRev ds

/-! ### The identity invariants (claim C2) -/

/-- Any two rows with case-insensitively equal names carry the same
patient id. -/
def EqNamesEqIds (s : Store) : Prop :=
  ∀ r₁ ∈ s.rows, ∀ r₂ ∈ s.rows,
    lower r₁.patient_name = lower r₂.patient_name →
    r₁.patient_id = r₂.patient_id

/-- Any two rows with case-insensitively distinct names carry distinct
patient ids. -/
def NeNamesNeIds (s : Store) : Prop :=
  ∀ r₁ ∈ s.rows, ∀ r₂ ∈ s.rows,
    lower r₁.patient_name ≠ lower r₂.patient_name →
    r₁.patient_id ≠ r₂.patient_id

/-- The invariant claimed for all reachable store states. -/
def C2Invariant (s : Store) : Prop := EqNamesEqIds s ∧ NeNamesNeIds s

instance (s : Store) : Decidable (EqNamesEqIds s) := by
  unfold EqNamesEqIds; infer_instance

instance (s : Store) : Decidable (NeNamesNeIds s) := by
  unfold NeNamesNeIds; infer_instance

instance (s : Store) : Decidable (C2Invariant s) := by
  unfold C2Invariant; infer_instance

/-- Every patient id in the store is `fmtPatientId k` for some
`1 ≤ k ≤ countDistinctPatientIds`. -/
def IdsInRange (s : Store) : Prop :=
  ∀ r ∈ s.rows, ∃ k, 1 ≤ k ∧ k ≤ countDistinctPatientIds s ∧
    r.patient_id = fmtPatientId k

/-! ### Concrete runs used as witnesses and counterexamples -/

def exJohn : PatientRecordCreate := ⟨"John Doe", "Flu", "Paracetamol"⟩

def exJane : PatientRecordCreate := ⟨"Jane Smith", "Cold", "Ibuprofen"⟩

def exCarol : PatientRecordCreate := ⟨"Carol Reed", "Cough", "Syrup"⟩

/-- Store after creating a record for "John Doe" (gets `P0001`). -/
def exT1 : Store :=
  createStore emptyStore exJohn 1 (get_next_patient_id emptyStore exJohn.patient_name)

/-- Store after also creating a record for "Jane Smith" (gets `P0002`). -/
def exT2 : Store :=
  createStore exT1 exJane 1 (get_next_patient_id exT1 exJane.patient_name)

/-- Store after deleting John Doe's record (rowid 1). -/
def exS3 : Store := deleteStore exT2 1

/-- Store after then creating a record for "Carol Reed": the live
`COUNT(DISTINCT patient_id)` is back to 1, so Carol is assigned `P0002`,
colliding with Jane Smith's id. -/
def exS4 : Store :=
  createStore exS3 exCarol 1 (get_next_patient_id exS3 exCarol.patient_name)

def exDriveFile : DriveFile := ⟨"drive-file-001", "medical_records_backup.db", 47185920⟩

/-- Drive connected, upload raises `TransportFault`; the database file is
at 45 MB of the 50 MB quota, so `needs_backup` is true. -/
def exEnvFault : BackupEnv := ⟨true, .error "TransportFault", 3, 47185920⟩

/-- Drive connected, upload succeeds; 45 MB used. -/
def exEnvOk : BackupEnv := ⟨true, .ok exDriveFile, 3, 47185920⟩

/-- Drive disconnected; 45 MB used, so `needs_backup` is true. -/
def exEnvDisconnected : BackupEnv := ⟨false, .error "TransportFault", 3, 47185920⟩

/-! ### Helper lemmas: the decimal formatter is injective -/


lemma digitsAux_zero (fuel : Nat) : digitsAux fuel 0 = [] := by
  cases fuel <;> simp [digitsAux]

lemma ofDigitsRev_digitsAux :
    ∀ fuel n, n ≤ fuel → ofDigitsRev (digitsAux fuel n) = n
  | 0, n, h => by
      have : n = 0 := Nat.le_zero.mp h
      simp [this, digitsAux, ofDigitsRev]
  | fuel + 1, n, h => by
      by_cases hn : n = 0
      · simp [hn, digitsAux, ofDigitsRev]
      · have hlt : n / 10 < n := Nat.div_lt_self (Nat.pos_of_ne_zero hn) (by norm_num)
        have hdiv : n / 10 ≤ fuel := by omega
        simp only [digitsAux, hn, if_false, ofDigitsRev]
        rw [ofDigitsRev_digitsAux fuel (n / 10) hdiv]
        exact Nat.mod_add_div n 10

lemma decDigits_injective {a b : Nat} (h : decDigits a = decDigits b) :
    a = b := by
  have ha : ofDigitsRev (decDigits a) = a := ofDigitsRev_digitsAux a a le_rfl
  have hb : ofDigitsRev (decDigits b) = b := ofDigitsRev_digitsAux b b le_rfl
  rw [h] at ha
  rw [hb] at ha
  exact ha.symm

lemma digitsAux_lt_ten :
    ∀ fuel n, ∀ d ∈ digitsAux fuel n, d < 10
  | 0, _, d, hd => by simp [digitsAux] at hd
  | fuel + 1, n, d, hd => by
      by_cases hn : n = 0
      · simp [hn, digitsAux] at hd
      · simp only [digitsAux, hn, if_false, List.mem_cons] at hd
        rcases hd with hd | hd
        · exact hd ▸ Nat.mod_lt n (by norm_num)
        · exact digitsAux_lt_ten fuel (n / 10) d hd

/-- The most significant digit of a positive number is nonzero. -/
lemma digitsAux_reverse_head :
    ∀ fuel n, 1 ≤ n → n ≤ fuel →
      ∃ d t, (digitsAux fuel n).reverse = d :: t ∧ d ≠ 0 ∧ d < 10
  | 0, n, h1, h2 => absurd (Nat.le_zero.mp h2) (by omega)
  | fuel + 1, n, h1, h2 => by
      have hn : n ≠ 0 := by omega
      simp only [digitsAux, hn, if_false, List.reverse_cons]
      by_cases hsmall : n < 10
      · have : n / 10 = 0 := Nat.div_eq_of_lt hsmall
        rw [this, digitsAux_zero]
        exact ⟨n % 10, [], by simp, by omega, Nat.mod_lt n (by norm_num)⟩
      · have hge : 10 ≤ n := by omega
        have hpos : 1 ≤ n / 10 := Nat.div_pos hge (by norm_num)
        have hlt : n / 10 < n := Nat.div_lt_self (by omega) (by norm_num)
        have hdiv : n / 10 ≤ fuel := by omega
        obtain ⟨d, t, ht, hd0, hd10⟩ :=
          digitsAux_reverse_head fuel (n / 10) hpos hdiv
        exact ⟨d, t ++ [n % 10], by rw [ht]; rfl, hd0, hd10⟩

lemma digitChar_inj_of_lt {x y : Nat} (hx : x < 10) (hy : y < 10)
    (h : Nat.digitChar x = Nat.digitChar y) : x = y := by
  interval_cases x <;> interval_cases y <;> revert h <;> decide

lemma digitChar_ne_zero_char {d : Nat} (hd : d < 10) (h0 : d ≠ 0) :
    Nat.digitChar d ≠ '0' := by
  revert h0; interval_cases d <;> decide

lemma map_digitChar_inj :
    ∀ l₁ l₂ : List Nat, (∀ d ∈ l₁, d < 10) → (∀ d ∈ l₂, d < 10) →
      l₁.map Nat.digitChar = l₂.map Nat.digitChar → l₁ = l₂
  | [], [], _, _, _ => rfl
  | [], _ :: _, _, _, h => by simp at h
  | _ :: _, [], _, _, h => by simp at h
  | a :: l₁, b :: l₂, h₁, h₂, h => by
      simp only [List.map_cons, List.cons.injEq] at h
      have ha := h₁ a (List.mem_cons_self a l₁)
      have hb := h₂ b (List.mem_cons_self b l₂)
      have := digitChar_inj_of_lt ha hb h.1
      have tail := map_digitChar_inj l₁ l₂
        (fun d hd => h₁ d (List.mem_cons_of_mem a hd))
        (fun d hd => h₂ d (List.mem_cons_of_mem b hd)) h.2
      rw [this, tail]

lemma string_ext {s t : String} (h : s.data = t.data) : s = t := by
  cases s; cases t; exact congrArg String.mk h

/-- The decimal rendering of a positive number starts with a nonzero
digit character. -/
lemma natRepr_head {a : Nat} (h : 1 ≤ a) :
    ∃ c t, (natRepr a).data = c :: t ∧ c ≠ '0' := by
  have ha : a ≠ 0 := by omega
  obtain ⟨d, t, ht, hd0, hd10⟩ := digitsAux_reverse_head a a h le_rfl
  refine ⟨Nat.digitChar d, t.map Nat.digitChar, ?_, digitChar_ne_zero_char hd10 hd0⟩
  simp only [natRepr, ha, if_false]
  show ((decDigits a).reverse.map Nat.digitChar) = _
  have ht' : (decDigits a).reverse = d :: t := ht
  rw [ht']
  rfl

lemma natRepr_inj {a b : Nat} (ha : 1 ≤ a) (hb : 1 ≤ b)
    (h : natRepr a = natRepr b) : a = b := by
  have ha' : a ≠ 0 := by omega
  have hb' : b ≠ 0 := by omega
  simp only [natRepr, ha', hb', if_false] at h
  have hdata : (decDigits a).reverse.map Nat.digitChar =
      (decDigits b).reverse.map Nat.digitChar := congrArg String.data h
  have hrev : (decDigits a).reverse = (decDigits b).reverse :=
    map_digitChar_inj _ _
      (fun d hd => digitsAux_lt_ten a a d (List.mem_reverse.mp hd))
      (fun d hd => digitsAux_lt_ten b b d (List.mem_reverse.mp hd)) hdata
  exact decDigits_injective (List.reverse_injective hrev)

lemma dropWhile_replicate_zero (k : Nat) (l : List Char) :
    (List.replicate k '0' ++ l).dropWhile (fun c => c == '0') =
      l.dropWhile (fun c => c == '0') := by
  induction k with
  | zero => rfl
  | succ k ih => simp [List.replicate_succ, List.dropWhile, ih]

lemma dropWhile_head_ne {c : Char} (t : List Char) (h : c ≠ '0') :
    (c :: t).dropWhile (fun x => x == '0') = c :: t := by
  have hc : (c == '0') = false := beq_eq_false_iff_ne.mpr h
  simp [List.dropWhile, hc]

lemma pad4_inj {a b : Nat} (ha : 1 ≤ a) (hb : 1 ≤ b)
    (h : pad4 a = pad4 b) : a = b := by
  obtain ⟨ca, ta, hta, hca⟩ := natRepr_head ha
  obtain ⟨cb, tb, htb, hcb⟩ := natRepr_head hb
  have hdata : List.replicate (4 - (natRepr a).length) '0' ++ (natRepr a).data =
      List.replicate (4 - (natRepr b).length) '0' ++ (natRepr b).data :=
    congrArg String.data h
  have hdw := congrArg (List.dropWhile (fun c => c == '0')) hdata
  rw [dropWhile_replicate_zero, dropWhile_replicate_zero, hta, htb,
    dropWhile_head_ne ta hca, dropWhile_head_ne tb hcb, ← hta, ← htb] at hdw
  exact natRepr_inj ha hb (string_ext hdw)

lemma fmtPatientId_inj {a b : Nat} (ha : 1 ≤ a) (hb : 1 ≤ b)
    (h : fmtPatientId a = fmtPatientId b) : a = b := by
  have hdata : ('P' :: (pad4 a).data) = ('P' :: (pad4 b).data) := by
    have := congrArg String.data h
    simpa [fmtPatientId, String.data_append] using this
  exact pad4_inj ha hb (string_ext (List.cons.injEq .. ▸ hdata).2)

/-! ### Helper lemmas: the distinct-id count -/

lemma dedup_length_append_singleton (l : List String) (x : String) :
    ((l ++ [x]).dedup).length =
      if x ∈ l then l.dedup.length else l.dedup.length + 1 := by
  rw [← List.card_toFinset, ← List.card_toFinset, List.toFinset_append]
  have hx : ([x] : List String).toFinset = {x} := by simp
  rw [hx]
  by_cases h : x ∈ l
  · rw [if_pos h,
      Finset.union_eq_left.mpr (Finset.singleton_subset_iff.mpr (List.mem_toFinset.mpr h))]
  · rw [if_neg h, Finset.union_comm, ← Finset.insert_eq,
      Finset.card_insert_of_not_mem (fun hc => h (List.mem_toFinset.mp hc))]

lemma countDistinct_createStore (s : Store) (record : PatientRecordCreate)
    (uid : Int) (pid : String) :
    countDistinctPatientIds (createStore s record uid pid) =
      if pid ∈ s.rows.map (·.patient_id) then countDistinctPatientIds s
      else countDistinctPatientIds s + 1 := by
  unfold countDistinctPatientIds createStore
  simp only [List.map_append, List.map_cons, List.map_nil]
  exact dedup_length_append_singleton _ _

lemma mem_createStore_rows {s : Store} {record : PatientRecordCreate}
    {uid : Int} {pid : String} {r : PatientRow} :
    r ∈ (createStore s record uid pid).rows ↔
      r ∈ s.rows ∨ r = ⟨s.nextRowId, uid, pid, record.patient_name,
        record.diagnosis_details, record.medicine_names, "", ""⟩ := by
  simp [createStore]

/-- Records surviving any sequence of creates and deletes never assign
two case-insensitively equal names different patient ids: the lookup
branch of `get_next_patient_id` always copies a surviving matching
row's id. -/
lemma eqNamesEqIds_of_reachable {s : Store} (h : Reachable s) :
    EqNamesEqIds s := by
  induction h with
  | init => intro r₁ h₁; simp [emptyStore] at h₁
  | @step s s' _ hs ih =>
    cases hs with
    | delete rid =>
      intro r₁ h₁ r₂ h₂ hname
      exact ih r₁ (List.mem_of_mem_filter h₁) r₂ (List.mem_of_mem_filter h₂) hname
    | create record uid =>
      intro r₁ h₁ r₂ h₂ hname
      rw [mem_createStore_rows] at h₁ h₂
      rcases h₁ with h₁ | h₁ <;> rcases h₂ with h₂ | h₂
      · exact ih r₁ h₁ r₂ h₂ hname
      · subst h₂
        rcases hfind : s.rows.find?
            (fun r => lower r.patient_name = lower record.patient_name) with _ | rm
        · have hnone := List.find?_eq_none.mp hfind r₁ h₁
          simp only [decide_eq_true_eq] at hnone
          exact absurd hname hnone
        · have hmem := List.mem_of_find?_eq_some hfind
          have hp := List.find?_some hfind
          have hpred : lower rm.patient_name = lower record.patient_name :=
            of_decide_eq_true hp
          have : get_next_patient_id s record.patient_name = rm.patient_id := by
            simp [get_next_patient_id, hfind]
          rw [this] at hname ⊢
          exact ih r₁ h₁ rm hmem (hname.trans hpred.symm)
      · subst h₁
        rcases hfind : s.rows.find?
            (fun r => lower r.patient_name = lower record.patient_name) with _ | rm
        · have hnone := List.find?_eq_none.mp hfind r₂ h₂
          simp only [decide_eq_true_eq] at hnone
          exact absurd hname.symm hnone
        · have hmem := List.mem_of_find?_eq_some hfind
          have hp := List.find?_some hfind
          have hpred : lower rm.patient_name = lower record.patient_name :=
            of_decide_eq_true hp
          have : get_next_patient_id s record.patient_name = rm.patient_id := by
            simp [get_next_patient_id, hfind]
          rw [this] at hname ⊢
          exact (ih r₂ h₂ rm hmem (hname.symm.trans hpred.symm)).symm
      · subst h₁; subst h₂; rfl

lemma reachable_of_createOnly {s : Store} (h : ReachableCreateOnly s) :
    Reachable s := by
  induction h with
  | init => exact Reachable.init
  | @create s record uid _ ih => exact Reachable.step ih (Step.create s record uid)

/-- Along create-only runs, rows with case-insensitively distinct names
carry distinct ids, and every id is `P` + the zero-padded position of
its name among the distinct ids: the fresh branch of
`get_next_patient_id` always allocates an id outside the set already in
use. -/
lemma neNames_idsInRange_of_createOnly {s : Store}
    (h : ReachableCreateOnly s) : NeNamesNeIds s ∧ IdsInRange s := by
  induction h with
  | init =>
    constructor <;> intro r₁ h₁ <;> simp [emptyStore] at h₁
  | @create s record uid _ ih =>
    obtain ⟨ihNe, ihRange⟩ := ih
    rcases hfind : s.rows.find?
        (fun r => lower r.patient_name = lower record.patient_name) with _ | rm
    · -- fresh name: a new id `fmtPatientId (count + 1)` is allocated
      have hpid : get_next_patient_id s record.patient_name =
          fmtPatientId (countDistinctPatientIds s + 1) := by
        simp [get_next_patient_id, hfind]
      have hnotmem : fmtPatientId (countDistinctPatientIds s + 1) ∉
          s.rows.map (·.patient_id) := by
        intro hmem
        obtain ⟨r, hr, hrid⟩ := List.mem_map.mp hmem
        obtain ⟨k, hk1, hk2, hkid⟩ := ihRange r hr
        have heq : fmtPatientId k = fmtPatientId (countDistinctPatientIds s + 1) :=
          hkid.symm.trans hrid
        have := fmtPatientId_inj hk1 (by omega) heq
        omega
      have hcount : countDistinctPatientIds
          (createStore s record uid (get_next_patient_id s record.patient_name)) =
          countDistinctPatientIds s + 1 := by
        rw [hpid, countDistinct_createStore, if_neg hnotmem]
      constructor
      · intro r₁ h₁ r₂ h₂ hname
        rw [mem_createStore_rows] at h₁ h₂
        rcases h₁ with h₁ | h₁ <;> rcases h₂ with h₂ | h₂
        · exact ihNe r₁ h₁ r₂ h₂ hname
        · subst h₂
          show r₁.patient_id ≠ get_next_patient_id s record.patient_name
          rw [hpid]
          obtain ⟨k, hk1, hk2, hkid⟩ := ihRange r₁ h₁
          rw [hkid]
          intro heq
          have := fmtPatientId_inj hk1 (by omega) heq
          omega
        · subst h₁
          show get_next_patient_id s record.patient_name ≠ r₂.patient_id
          rw [hpid]
          obtain ⟨k, hk1, hk2, hkid⟩ := ihRange r₂ h₂
          rw [hkid]
          intro heq
          have := fmtPatientId_inj (by omega) hk1 heq
          omega
        · subst h₁; subst h₂; exact absurd rfl hname
      · intro r h₁
        rw [mem_createStore_rows] at h₁
        rw [hcount]
        rcases h₁ with h₁ | h₁
        · obtain ⟨k, hk1, hk2, hkid⟩ := ihRange r h₁
          exact ⟨k, hk1, by omega, hkid⟩
        · subst h₁
          exact ⟨countDistinctPatientIds s + 1, by omega, le_rfl, hpid⟩
    · -- existing name: the surviving matching row's id is copied
      have hmem := List.mem_of_find?_eq_some hfind
      have hp := List.find?_some hfind
      have hpred : lower rm.patient_name = lower record.patient_name :=
        of_decide_eq_true hp
      have hpid : get_next_patient_id s record.patient_name = rm.patient_id := by
        simp [get_next_patient_id, hfind]
      have hmemid : get_next_patient_id s record.patient_name ∈
          s.rows.map (·.patient_id) := by
        rw [hpid]; exact List.mem_map.mpr ⟨rm, hmem, rfl⟩
      have hcount : countDistinctPatientIds
          (createStore s record uid (get_next_patient_id s record.patient_name)) =
          countDistinctPatientIds s := by
        rw [countDistinct_createStore, if_pos hmemid]
      constructor
      · intro r₁ h₁ r₂ h₂ hname
        rw [mem_createStore_rows] at h₁ h₂
        rcases h₁ with h₁ | h₁ <;> rcases h₂ with h₂ | h₂
        · exact ihNe r₁ h₁ r₂ h₂ hname
        · subst h₂
          have hname' : lower r₁.patient_name ≠ lower rm.patient_name := by
            intro he; exact hname (he.trans hpred)
          show r₁.patient_id ≠ get_next_patient_id s record.patient_name
          rw [hpid]
          exact ihNe r₁ h₁ rm hmem hname'
        · subst h₁
          have hname' : lower rm.patient_name ≠ lower r₂.patient_name := by
            intro he; exact hname (hpred.symm.trans he)
          show get_next_patient_id s record.patient_name ≠ r₂.patient_id
          rw [hpid]
          exact ihNe rm hmem r₂ h₂ hname'
        · subst h₁; subst h₂; exact absurd rfl hname
      · intro r h₁
        rw [mem_createStore_rows] at h₁
        rw [hcount]
        rcases h₁ with h₁ | h₁
        · exact ihRange r h₁
        · subst h₁
          obtain ⟨k, hk1, hk2, hkid⟩ := ihRange rm hmem
          exact ⟨k, hk1, hk2, hpid.trans hkid⟩

/-! ### Claim theorems -/

/-- C3: for every store state and all names `a`, `b` with
`lower(a) == lower(b)`, `resolve(a)` and `resolve(b)` against that same
store return the same patient id; and if a record with a
case-insensitively matching name exists, `resolve` returns such a
record's existing `patient_id`. -/
theorem C3_resolve_respects_case_insensitive_names :
    (∀ (s : Store) (a b : String), lower a = lower b →
      get_next_patient_id s a = get_next_patient_id s b) ∧
    (∀ (s : Store) (a : String) (r : PatientRow), r ∈ s.rows →
      lower r.patient_name = lower a →
      ∃ r' ∈ s.rows, lower r'.patient_name = lower a ∧
        get_next_patient_id s a = r'.patient_id) := by
  constructor
  · intro s a b h
    simp only [get_next_patient_id, h]
  · intro s a r hr hname
    rcases hfind : s.rows.find?
        (fun x => lower x.patient_name = lower a) with _ | rm
    · have := List.find?_eq_none.mp hfind r hr
      simp only [decide_eq_true_eq] at this
      exact absurd hname this
    · have hmem := List.mem_of_find?_eq_some hfind
      have hp := List.find?_some hfind
      refine ⟨rm, hmem, of_decide_eq_true hp, ?_⟩
      simp [get_next_patient_id, hfind]

/-- Witness for C3 at a concrete store: "JOHN DOE" and "john doe"
resolve identically, and a name matching the stored "John Doe" row
resolves to its stored id. -/
theorem C3_witness :
    get_next_patient_id exT1 "JOHN DOE" = get_next_patient_id exT1 "john doe" ∧
    ∃ r' ∈ exT1.rows, lower r'.patient_name = lower "John DOE" ∧
      get_next_patient_id exT1 "John DOE" = r'.patient_id :=
  ⟨C3_resolve_respects_case_insensitive_names.1 exT1 "JOHN DOE" "john doe" (by decide),
   C3_resolve_respects_case_insensitive_names.2 exT1 "John DOE"
     ⟨1, 1, "P0001", "John Doe", "Flu", "Paracetamol", "", ""⟩ (by decide) (by decide)⟩

/-- C4: for every name with no case-insensitive match in the store,
`resolve` returns `"P"` followed by the 4-digit zero-padded decimal of
(number of distinct patient ids in the store) + 1; on the empty store
every name resolves to `"P0001"`. -/
theorem C4_fresh_name_gets_next_sequence :
    (∀ (s : Store) (a : String),
      (∀ r ∈ s.rows, lower r.patient_name ≠ lower a) →
      get_next_patient_id s a = "P" ++ pad4 (countDistinctPatientIds s + 1)) ∧
    (∀ a : String, get_next_patient_id emptyStore a = "P0001") := by
  constructor
  · intro s a h
    have hfind : s.rows.find? (fun x => lower x.patient_name = lower a) = none :=
      List.find?_eq_none.mpr fun x hx => by simpa using h x hx
    simp [get_next_patient_id, hfind, fmtPatientId]
  · intro a
    show fmtPatientId (countDistinctPatientIds emptyStore + 1) = "P0001"
    decide

/-- Witness for C4: "Jane Smith" has no match in the one-record store
`exT1`, and resolves to `P0002`; any first-ever name gets `P0001`. -/
theorem C4_witness :
    get_next_patient_id exT1 "Jane Smith" =
      "P" ++ pad4 (countDistinctPatientIds exT1 + 1) ∧
    get_next_patient_id emptyStore "John Doe" = "P0001" :=
  ⟨C4_fresh_name_gets_next_sequence.1 exT1 "Jane Smith" (by decide),
   C4_fresh_name_gets_next_sequence.2 "John Doe"⟩

/-- C10: `get_next_patient_id` only reads the store — run as a state
transformer it returns the store unchanged — and the store mutation of a
create request is exactly the insertion of the one new row carrying the
resolved id. -/
theorem C10_resolve_leaves_store_unchanged :
    (∀ (s : Store) (name : String), (get_next_patient_id_run s name).2 = s) ∧
    (∀ (env : BackupEnv) (s : Store) (record : PatientRecordCreate) (uid : Int),
      (create_patient_record env s record uid).store =
        createStore s record uid (get_next_patient_id s record.patient_name)) := by
  constructor
  · intro s name
    rfl
  · intro env s record uid
    unfold create_patient_record
    rcases hfind : (createStore s record uid
        (get_next_patient_id s record.patient_name)).rows.find?
        (fun r => r.id = s.nextRowId) with _ | row <;> simp [hfind]

lemma pyRound2_eq {q : ℚ} {z : ℤ} (hz : ⌊q * 100⌋ = z)
    (hlt : q * 100 - (z : ℚ) < 1 / 2) : pyRound2 q = (z : ℚ) / 100 := by
  rw [pyRound2, roundHalfEven, hz, if_pos hlt]

lemma pct_41943040 (tr : Nat) :
    (db_get_storage_stats tr 41943040).storage_percentage = 80 := by
  have hq : (((41943040 : ℕ) : ℚ) / (1024 * 1024) / 50 * 100) * 100 =
      ((8000 : ℤ) : ℚ) := by norm_num
  show pyRound2 (((41943040 : ℕ) : ℚ) / (1024 * 1024) / 50 * 100) = 80
  rw [pyRound2_eq (by rw [hq, Int.floor_intCast]) (by rw [hq]; norm_num)]
  norm_num

lemma pct_41937827 (tr : Nat) :
    (db_get_storage_stats tr 41937827).storage_percentage = 7999 / 100 := by
  have hz : ⌊(((41937827 : ℕ) : ℚ) / (1024 * 1024) / 50 * 100) * 100⌋ =
      (7999 : ℤ) := by
    rw [Int.floor_eq_iff]
    constructor <;> norm_num
  show pyRound2 (((41937827 : ℕ) : ℚ) / (1024 * 1024) / 50 * 100) = 7999 / 100
  rw [pyRound2_eq hz (by norm_num)]
  norm_num

lemma pct_47185920 (tr : Nat) :
    (db_get_storage_stats tr 47185920).storage_percentage = 90 := by
  have hq : (((47185920 : ℕ) : ℚ) / (1024 * 1024) / 50 * 100) * 100 =
      ((9000 : ℤ) : ℚ) := by norm_num
  show pyRound2 (((47185920 : ℕ) : ℚ) / (1024 * 1024) / 50 * 100) = 90
  rw [pyRound2_eq (by rw [hq, Int.floor_intCast]) (by rw [hq]; norm_num)]
  norm_num

/-- C5: for every store state, the storage-stats snapshot has
`needs_backup = true` iff `utilization_pct >= 80`, including the
boundary: a store whose rounded percentage is exactly 80.0 yields true,
and one whose rounded percentage is 79.99 yields false. -/
theorem C5_needs_backup_iff_eighty_percent :
    (∀ tr b : Nat, (server_get_storage_stats tr b).needs_backup = true ↔
      80 ≤ (server_get_storage_stats tr b).storage_percentage) ∧
    ((server_get_storage_stats 0 41943040).storage_percentage = 80 ∧
      (server_get_storage_stats 0 41943040).needs_backup = true) ∧
    ((server_get_storage_stats 0 41937827).storage_percentage = 7999 / 100 ∧
      (server_get_storage_stats 0 41937827).needs_backup = false) := by
  refine ⟨fun tr b => ?_, ⟨?_, ?_⟩, ⟨?_, ?_⟩⟩
  · show decide (80 ≤ (db_get_storage_stats tr b).storage_percentage) = true ↔
      80 ≤ (db_get_storage_stats tr b).storage_percentage
    exact decide_eq_true_iff
  · exact pct_41943040 0
  · show decide (80 ≤ (db_get_storage_stats 0 41943040).storage_percentage) = true
    rw [pct_41943040]
    exact decide_eq_true (by norm_num)
  · exact pct_41937827 0
  · show decide (80 ≤ (db_get_storage_stats 0 41937827).storage_percentage) = false
    rw [pct_41937827]
    exact decide_eq_false (by norm_num)

/-- C6: the snapshot's `utilization_pct` equals
`bytes / quota * 100` rounded to two decimals with the quota fixed at
50 MB (52428800 bytes); a store at 45 MB (47185920 bytes) yields
`utilization_pct = 90.0` and `needs_backup = true`. -/
theorem C6_utilization_is_rounded_quota_ratio :
    (∀ tr b : Nat, (db_get_storage_stats tr b).storage_percentage =
      pyRound2 ((b : ℚ) / 52428800 * 100)) ∧
    ((server_get_storage_stats 0 47185920).storage_percentage = 90 ∧
      (server_get_storage_stats 0 47185920).needs_backup = true) := by
  refine ⟨fun tr b => ?_, ?_, ?_⟩
  · show pyRound2 ((b : ℚ) / (1024 * 1024) / 50 * 100) = _
    congr 1
    ring
  · exact pct_47185920 0
  · show decide (80 ≤ (db_get_storage_stats 0 47185920).storage_percentage) = true
    rw [pct_47185920]
    exact decide_eq_true (by norm_num)

/-- C7 counterexample: with `needs_backup` true (45 MB of 50 MB), the
remote link connected and the upload raising `TransportFault`, the
post-write check swallows the error and records NO `sync_log` row at
all — the claimed `BackupEvent{status: failed}` is never written
(`backup_to_drive` inserts into `sync_log` only on success). -/
theorem C7_counterexample_no_failed_event :
    (check_and_backup_if_needed exEnvFault "backup.db").events = [] ∧
    (check_and_backup_if_needed exEnvFault "backup.db").outcome =
      .failed "Backup failed: TransportFault" := by
  have hpc : (80 : ℚ) ≤ (db_get_storage_stats exEnvFault.total_records
      exEnvFault.db_size_bytes).storage_percentage := by
    show (80 : ℚ) ≤ (db_get_storage_stats 3 47185920).storage_percentage
    rw [pct_47185920]
    norm_num
  unfold check_and_backup_if_needed
  rw [if_pos hpc]
  simp [exEnvFault, backup_to_drive]

/-- C7 (amended): when `needs_backup` is true, the remote link is
connected, and the upload raises a transport fault, the post-write check
ends in the `Failed` state with the error logged and swallowed — it
never propagates, and the triggering write's success response does not
depend on the backup environment at all — but NO `BackupEvent` is
recorded: the `sync_log` is written only on successful backups. -/
theorem C7_upload_fault_swallowed_no_event :
    ∀ (env : BackupEnv) (fn reason : String),
      env.connected = true →
      80 ≤ (db_get_storage_stats env.total_records
        env.db_size_bytes).storage_percentage →
      env.upload = .error reason →
      (check_and_backup_if_needed env fn).outcome =
        .failed ("Backup failed: " ++ reason) ∧
      (check_and_backup_if_needed env fn).events = [] ∧
      ∀ (s : Store) (record : PatientRecordCreate) (uid : Int) (env' : BackupEnv),
        (create_patient_record env s record uid).response =
          (create_patient_record env' s record uid).response := by
  intro env fn reason hconn hpct hup
  refine ⟨?_, ?_, ?_⟩
  · unfold check_and_backup_if_needed
    rw [if_pos hpct]
    simp [hconn, backup_to_drive, hup]
  · unfold check_and_backup_if_needed
    rw [if_pos hpct]
    simp [hconn, backup_to_drive, hup]
  · intro s record uid env'
    unfold create_patient_record
    rcases hfind : (createStore s record uid
        (get_next_patient_id s record.patient_name)).rows.find?
        (fun r => r.id = s.nextRowId) with _ | row <;> simp [hfind]

/-- Witness for the amended C7 at the concrete faulting environment. -/
theorem C7_witness :
    (check_and_backup_if_needed exEnvFault "backup.db").outcome =
      .failed ("Backup failed: " ++ "TransportFault") ∧
    (check_and_backup_if_needed exEnvFault "backup.db").events = [] ∧
    (create_patient_record exEnvFault emptyStore exJohn 1).response =
      (create_patient_record exEnvOk emptyStore exJohn 1).response := by
  obtain ⟨h1, h2, h3⟩ := C7_upload_fault_swallowed_no_event exEnvFault
    "backup.db" "TransportFault" rfl
    (by show (80 : ℚ) ≤ (db_get_storage_stats 3 47185920).storage_percentage
        rw [pct_47185920]
        norm_num)
    rfl
  exact ⟨h1, h2, h3 emptyStore exJohn 1 exEnvOk⟩

/-- C8: whenever the remote link is disconnected, the post-write check
returns normally (its `try/except` swallows everything and the
disconnected branch does nothing), attempts no upload, ends in a skip
state, and writes no `sync_log` row — even when `needs_backup` is
true. -/
theorem C8_disconnected_is_silent_skip :
    ∀ (env : BackupEnv) (fn : String), env.connected = false →
      (check_and_backup_if_needed env fn).uploadAttempted = false ∧
      (check_and_backup_if_needed env fn).events = [] ∧
      ((check_and_backup_if_needed env fn).outcome = .skippedDisconnected ∨
        (check_and_backup_if_needed env fn).outcome = .skippedBelowThreshold) := by
  intro env fn h
  unfold check_and_backup_if_needed
  by_cases hp : 80 ≤ (db_get_storage_stats env.total_records
      env.db_size_bytes).storage_percentage
  · rw [if_pos hp]
    simp [h]
  · rw [if_neg hp]
    simp

/-- Witness for C8: 45 MB used (so `needs_backup` is true) but the
drive is disconnected. -/
theorem C8_witness :
    (check_and_backup_if_needed exEnvDisconnected "backup.db").uploadAttempted = false ∧
    (check_and_backup_if_needed exEnvDisconnected "backup.db").events = [] ∧
    ((check_and_backup_if_needed exEnvDisconnected "backup.db").outcome =
        .skippedDisconnected ∨
      (check_and_backup_if_needed exEnvDisconnected "backup.db").outcome =
        .skippedBelowThreshold) :=
  C8_disconnected_is_silent_skip exEnvDisconnected "backup.db" rfl

/-- C9: fetching any record that exists in the store through
`get_patient_record` yields HTTP 404 instead of the record: the
response constructor shifts the schema columns by one and omits the
required `user_id` field, so pydantic validation fails and the blanket
handler re-raises 404. -/
theorem C9_get_single_record_always_404 :
    ∀ (s : Store) (record_id : Nat),
      (∃ r ∈ s.rows, r.id = record_id) →
      get_patient_record s record_id = .error (404, "Record not found") := by
  intro s record_id hex
  obtain ⟨r, hr, hid⟩ := hex
  rcases hfind : s.rows.find? (fun x => x.id = record_id) with _ | row
  · have := List.find?_eq_none.mp hfind r hr
    simp only [decide_eq_true_eq] at this
    exact absurd hid this
  · simp [get_patient_record, hfind, validatePatientRecord]

/-- Witness for C9: the one-record store `exT1` holds rowid 1, and
fetching it 404s. -/
theorem C9_witness :
    get_patient_record exT1 1 = .error (404, "Record not found") :=
  C9_get_single_record_always_404 exT1 1
    ⟨⟨1, 1, "P0001", "John Doe", "Flu", "Paracetamol", "", ""⟩, by decide, rfl⟩

/-- C1 (the code, at the claimed property's failing input — every
successful create): `create_patient_record` returns the created record
from inside the post-insert fetch, so the handler exits before the
line calling `check_and_backup_if_needed`, which is unreachable on the
success path: the post-write storage-quota check never runs. -/
theorem C1_backup_check_unreachable_on_success :
    ∀ (env : BackupEnv) (s : Store) (record : PatientRecordCreate) (uid : Int),
      (∃ pr, (create_patient_record env s record uid).response = .ok pr) ∧
      (create_patient_record env s record uid).backupCheckRun = false := by
  intro env s record uid
  have hmem : (⟨s.nextRowId, uid, get_next_patient_id s record.patient_name,
      record.patient_name, record.diagnosis_details, record.medicine_names,
      "", ""⟩ : PatientRow) ∈ (createStore s record uid
        (get_next_patient_id s record.patient_name)).rows := by
    simp [createStore]
  rcases hfind : (createStore s record uid
      (get_next_patient_id s record.patient_name)).rows.find?
      (fun r => r.id = s.nextRowId) with _ | row
  · have := List.find?_eq_none.mp hfind _ hmem
    simp at this
  · constructor
    · refine ⟨⟨some row.id, row.user_id, row.patient_id, row.patient_name,
        row.diagnosis_details, row.medicine_names, some row.created_at,
        some row.updated_at⟩, ?_⟩
      simp [create_patient_record, hfind]
    · simp [create_patient_record, hfind]

/-- C2 counterexample: the concrete run create "John Doe", create
"Jane Smith", delete John's record, create "Carol Reed" is reachable,
and leaves Jane and Carol — case-insensitively distinct names — sharing `P0002`. -/
theorem C2_counterexample_delete_reuses_id :
    Reachable exS4 ∧ ¬ C2Invariant exS4 :=
  ⟨Reachable.step
      (Reachable.step
        (Reachable.step
          (Reachable.step Reachable.init (Step.create emptyStore exJohn 1))
          (Step.create exT1 exJane 1))
        (Step.delete exT2 1))
      (Step.create exS3 exCarol 1),
    by decide⟩

/-- C2 (amended): over all states reachable by creates and deletes,
records with case-insensitively equal names always carry the same
patient id; the full claimed invariant — additionally, records with
distinct names carry distinct ids — holds for all states reachable by
create operations alone (deletes can shrink the live
`COUNT(DISTINCT patient_id)` basis and make a later create reuse a
surviving record's id). -/
theorem C2_invariant_amended :
    (∀ s : Store, Reachable s → EqNamesEqIds s) ∧
    (∀ s : Store, ReachableCreateOnly s → C2Invariant s) :=
  ⟨fun _ h => eqNamesEqIds_of_reachable h,
   fun _ h => ⟨eqNamesEqIds_of_reachable (reachable_of_createOnly h),
     (neNames_idsInRange_of_createOnly h).1⟩⟩

/-- Witness for C2: the amended invariant evaluated on the concrete
delete run `exS4` and the concrete create-only run `exT2`. -/
theorem C2_witness :
    EqNamesEqIds exS4 ∧ C2Invariant exT2 :=
  ⟨C2_invariant_amended.1 exS4
      (Reachable.step
        (Reachable.step
          (Reachable.step
            (Reachable.step Reachable.init (Step.create emptyStore exJohn 1))
            (Step.create exT1 exJane 1))
          (Step.delete exT2 1))
        (Step.create exS3 exCarol 1)),
   C2_invariant_amended.2 exT2
      (ReachableCreateOnly.create exJane 1
        (ReachableCreateOnly.create exJohn 1 ReachableCreateOnly.init))⟩

end MedicalHistory
